import Mathlib

/-!
Shallow embedding of the core of `jira-assign-version-action`
(`src/jira.ts`): the retry wrapper `requestWithRetry`, the idempotency
check `issueAlreadyHasVersion`, and the orchestrator
`assignVersionToIssues`.

Modelling conventions:
* The HTTP transport is a scripted oracle: per issue, a function from the
  1-based invocation number to either a thrown error message
  (`Except.error`) or an `HttpResponse` (`Except.ok`).
* `HttpResponse.statusCode` is `Option Nat` (`none` models an absent
  status; the code reads it as `res.message.statusCode || 0`).
* `HttpResponse.rawBody` is what `readBody()` returns; `parsedBody`
  models the outcome of `JSON.parse` on that text restricted to the
  object shapes the code consumes (`none` models a parse exception).
* JavaScript `Number(headerValue)` is modelled by a decimal-numeral
  parse (`jsHeaderNumber`) covering the delta-seconds values relevant to
  `Retry-After`; `none` models `NaN`.
* The concurrent fan-out (`p-limit`) is serialised: issues are processed
  in input order, each against its own oracle, which is faithful to the
  report because each task touches only its own issue's state.
-/

namespace JiraAction

/-- One entry of a Jira version field: `{id?, name?}` as consumed by
`issueAlreadyHasVersion` (`v.id`, `v.name`; an absent property is `none`). -/
structure VersionEntry where
  id : Option String
  name : Option String
deriving Repr, DecidableEq

/-- The slice of a parsed GET body the code reads: `issueData.fields`,
an optional map from field name to an array of version entries. -/
structure IssueData where
  fields : Option (List (String × List VersionEntry))
deriving Repr, DecidableEq

/-- The `{}` the code initialises `issueData` to. -/
def emptyIssueData : IssueData := ⟨none⟩

/-- An HTTP response as consumed by the code: status code, headers,
body text, and the modelled `JSON.parse` outcome of that text. -/
structure HttpResponse where
  statusCode : Option Nat
  headers : List (String × String)
  rawBody : String
  parsedBody : Option IssueData
deriving Repr, DecidableEq

/-- `res.message.statusCode || 0`. -/
def statusOf (r : HttpResponse) : Nat := r.statusCode.getD 0

/-- What one transport invocation yields: a thrown error message or a
response. -/
abbrev TransportOutcome := Except String HttpResponse

/-- A scripted transport for one issue: 1-based invocation number to
outcome. -/
abbrev Client := Nat → TransportOutcome

/-- The version entries the check iterates over:
`issueData.fields && issueData.fields[versionField] ? issueData.fields[versionField] : []`. -/
def existingVersions (issueData : IssueData) (versionField : String) :
    List VersionEntry :=
  match issueData.fields with
  | none => []
  | some fs => (fs.lookup versionField).getD []

/-- `issueAlreadyHasVersion` from `src/jira.ts`. -/
def issueAlreadyHasVersion (issueData : IssueData) (versionField : String)
    (version : String) (versionIsId : Bool) : Bool :=
  (existingVersions issueData versionField).any fun v =>
    if versionIsId then v.id == some version else v.name == some version

/-- JavaScript truthiness of an optional header string: `undefined` and
`""` are falsy. -/
def truthyHeader : Option String → Option String
  | some v => if v = "" then none else some v
  | none => none

/-- The header value the retry loop uses:
`headers['retry-after'] || headers['Retry-After']`, kept only when the
resulting value is truthy (the surrounding ternary tests truthiness). -/
def retryAfterRaw (headers : List (String × String)) : Option String :=
  (truthyHeader (headers.lookup "retry-after")).orElse fun _ =>
    truthyHeader (headers.lookup "Retry-After")

/-- `Number(v)` on a header value, restricted to the non-negative decimal
numerals relevant to `Retry-After` (the standard delta-seconds form);
`none` models `NaN`. The code only applies it to non-empty values
(`truthyHeader` filters the rest). -/
def jsHeaderNumber (v : String) : Option Nat :=
  if v.data ≠ [] ∧ v.data.all (fun c => 48 ≤ c.toNat && c.toNat ≤ 57) then
    some (v.data.foldl (fun n c => n * 10 + (c.toNat - 48)) 0)
  else none

/-- `waitSec = retryAfterHeader ? Number(retryAfterHeader) : Math.pow(2, attempt)`;
`none` models a `NaN` wait. -/
def computeWaitSec (headers : List (String × String)) (attempt : Nat) :
    Option Nat :=
  match retryAfterRaw headers with
  | some v => jsHeaderNumber v
  | none => some (2 ^ attempt)

/-- Status classification of the retry loop's third branch: neither 2xx
nor a non-429 4xx, i.e. the response is retried when attempts remain. -/
def retryableStatus (s : Nat) : Bool :=
  !(decide (200 ≤ s ∧ s < 300)) && !(decide (400 ≤ s ∧ s < 500 ∧ s ≠ 429))

/-- Trace of one `requestWithRetry` call: how many transport invocations
happened, the waits (in seconds, `none` = `NaN`) between attempts, and
the result: `some (.ok r)` = returned `r`, `some (.error e)` = threw `e`,
`none` = the loop exited without returning (JavaScript `undefined`). -/
structure RetryTrace where
  calls : Nat
  waits : List (Option Nat)
  result : Option (Except String HttpResponse)
deriving Repr

/-- The body of `requestWithRetry`'s `while (attempt <= maxRetries)` loop,
entered with the pre-increment counter value `attempt`; the attempt
executed in this iteration is `attempt + 1`. -/
def retryGo (client : Client) (maxRetries : Nat) (attempt : Nat) :
    RetryTrace :=
  if _h : attempt ≤ maxRetries then
    let a := attempt + 1
    match client a with
    | .ok res =>
      let s := statusOf res
      if 200 ≤ s ∧ s < 300 then ⟨1, [], some (.ok res)⟩
      else if 400 ≤ s ∧ s < 500 ∧ s ≠ 429 then ⟨1, [], some (.ok res)⟩
      else if maxRetries ≤ a then ⟨1, [], some (.ok res)⟩
      else
        let rest := retryGo client maxRetries a
        ⟨rest.calls + 1, computeWaitSec res.headers a :: rest.waits,
          rest.result⟩
    | .error e =>
      if maxRetries ≤ a then ⟨1, [], some (.error e)⟩
      else
        let rest := retryGo client maxRetries a
        ⟨rest.calls + 1, some (2 ^ a) :: rest.waits, rest.result⟩
  else ⟨0, [], none⟩
termination_by maxRetries + 1 - attempt
decreasing_by all_goals omega

/-- `requestWithRetry` from `src/jira.ts`: the loop starts with
`attempt = 0` and increments at the top of each iteration. -/
def requestWithRetry (client : Client) (maxRetries : Nat) : RetryTrace :=
  retryGo client maxRetries 0

/-- Terminal classification of one issue. -/
inductive Outcome where
  | updated
  | skipped
  | failed (error : String)
deriving Repr, DecidableEq

/-- Trace of one issue's processing: its outcome and the transport
requests (method, url) performed for it, in order. -/
structure IssueTrace where
  outcome : Outcome
  requests : List (String × String)
deriving Repr, DecidableEq

/-- The run mode selecting the version field. -/
inductive Mode where
  | fix
  | affected
deriving Repr, DecidableEq

/-- `mode === 'affected' ? 'affectedVersions' : 'fixVersions'`. -/
def fieldOf : Mode → String
  | .affected => "affectedVersions"
  | .fix => "fixVersions"

/-- `JiraConfig` restricted to what the orchestrator's logic consumes
(credentials only feed the auth header, which is opaque here). -/
structure RunConfig where
  baseUrl : String
  issues : List String
  version : String
  versionIsId : Bool
  mode : Mode
  dryRun : Bool
  concurrency : Nat := 4
  maxRetries : Nat := 4

/-- `${baseUrl}/rest/api/3/issue/${issue}`. -/
def issueUrlOf (baseUrl issue : String) : String :=
  baseUrl ++ "/rest/api/3/issue/" ++ issue

/-- `${issueUrl}?fields=${field}`. -/
def getUrlOf (baseUrl issue field : String) : String :=
  issueUrlOf baseUrl issue ++ "?fields=" ++ field

/-- Error message of the `TypeError` raised by dereferencing an
`undefined` response (`getRes!`/`putRes!` when the loop fell through);
provably unreachable for `maxRetries : Nat`. -/
def undefinedResponseError : String :=
  "Cannot read properties of undefined"

/-- Parsing of a GET body:
`issueData = getBody ? JSON.parse(getBody) : {}` with the parse
exception swallowed (`issueData` stays `{}`). -/
def parseGetBody (res : HttpResponse) : IssueData :=
  if res.rawBody = "" then emptyIssueData
  else res.parsedBody.getD emptyIssueData

/-- Classification of the PUT response:
2xx pushes `updated`, anything else pushes
`{issue, error: `HTTP ${status}: ${body}`}`. -/
def classifyPut (putRes : HttpResponse) : Outcome :=
  let s := statusOf putRes
  if 200 ≤ s ∧ s < 300 then .updated
  else .failed ("HTTP " ++ toString s ++ ": " ++ putRes.rawBody)

/-- The per-issue flow after the GET body has been parsed: idempotency
check, then the PUT through the retry wrapper. `getCalls` transport
invocations were already consumed by the GET. -/
def afterGet (cfg : RunConfig) (issue : String) (client : Client)
    (getCalls : Nat) (issueData : IssueData) : IssueTrace :=
  let field := fieldOf cfg.mode
  let getReqs :=
    List.replicate getCalls ("GET", getUrlOf cfg.baseUrl issue field)
  if issueAlreadyHasVersion issueData field cfg.version cfg.versionIsId then
    ⟨.skipped, getReqs⟩
  else
    let putTrace :=
      requestWithRetry (fun a => client (getCalls + a)) cfg.maxRetries
    let reqs := getReqs ++
      List.replicate putTrace.calls ("PUT", issueUrlOf cfg.baseUrl issue)
    match putTrace.result with
    | some (.ok putRes) => ⟨classifyPut putRes, reqs⟩
    | some (.error e) => ⟨.failed e, reqs⟩
    | none => ⟨.failed undefinedResponseError, reqs⟩

/-- One issue's processing under the per-issue try/catch: dry-run
shortcut, GET through the retry wrapper, defensive parse, then
`afterGet`. A propagated transport exception is caught at this boundary
and becomes `failed` with the exception's message. -/
def processIssue (cfg : RunConfig) (issue : String) (client : Client) :
    IssueTrace :=
  if cfg.dryRun then ⟨.updated, []⟩
  else
    let field := fieldOf cfg.mode
    let getTrace := requestWithRetry client cfg.maxRetries
    let getReqs :=
      List.replicate getTrace.calls ("GET", getUrlOf cfg.baseUrl issue field)
    match getTrace.result with
    | some (.ok getRes) =>
        afterGet cfg issue client getTrace.calls (parseGetBody getRes)
    | some (.error e) => ⟨.failed e, getReqs⟩
    | none => ⟨.failed undefinedResponseError, getReqs⟩

/-- The returned report: `{updated, failed, skipped}`. -/
structure RunReport where
  updated : List String
  failed : List (String × String)
  skipped : List String
deriving Repr, DecidableEq

/-- A whole run's trace: the report plus every transport request made,
tagged with the issue it was made for. -/
structure RunTrace where
  report : RunReport
  requests : List (String × (String × String))
deriving Repr, DecidableEq

/-- Componentwise concatenation of two run traces. -/
def RunTrace.append (a b : RunTrace) : RunTrace :=
  ⟨⟨a.report.updated ++ b.report.updated,
    a.report.failed ++ b.report.failed,
    a.report.skipped ++ b.report.skipped⟩,
    a.requests ++ b.requests⟩

/-- A transport oracle for a run: issue id to that issue's scripted
client. -/
abbrev Env := String → Client

/-- Fold of the per-issue tasks over an issue list, each issue
contributing exactly one bucket entry. -/
def runIssues (cfg : RunConfig) (env : Env) : List String → RunTrace
  | [] => ⟨⟨[], [], []⟩, []⟩
  | issue :: rest =>
    let t := processIssue cfg issue (env issue)
    let r := runIssues cfg env rest
    { report :=
        match t.outcome with
        | .updated => { r.report with updated := issue :: r.report.updated }
        | .skipped => { r.report with skipped := issue :: r.report.skipped }
        | .failed e =>
            { r.report with failed := (issue, e) :: r.report.failed },
      requests := (t.requests.map fun q => (issue, q)) ++ r.requests }

/-- `assignVersionToIssues` from `src/jira.ts`, serialised over the
input issue list. -/
def assignVersionToIssues (cfg : RunConfig) (env : Env) : RunTrace :=
  runIssues cfg env cfg.issues

/-- Whether the loop keeps going after this transport outcome when more
attempts remain: an exception always does, a response only when its
status is retryable. -/
def continuesRetry : TransportOutcome → Bool
  | .error _ => true
  | .ok r => retryableStatus (statusOf r)


/-! ### Concrete responses, clients and configurations used by the
counterexamples and witnesses -/

/-- A 204 No Content response. -/
def res204 : HttpResponse := ⟨some 204, [], "", none⟩

/-- A 500 response. -/
def res500 : HttpResponse := ⟨some 500, [], "oops", none⟩

/-- A 404 response whose JSON body parses to an object without a
`fields` key (as Jira's error body does). -/
def res404 : HttpResponse := ⟨some 404, [], "not found", some ⟨none⟩⟩

/-- A 200 response with an empty body. -/
def res200empty : HttpResponse := ⟨some 200, [], "", none⟩

/-- A 429 response whose retry-after header value is not a number. -/
def res429bad : HttpResponse :=
  ⟨some 429, [("retry-after", "abc")], "rate limited", none⟩

/-- A 429 response whose retry-after header uses upper-case spelling
different from the two the code probes. -/
def res429upper : HttpResponse :=
  ⟨some 429, [("RETRY-AFTER", "7")], "rate limited", none⟩

/-- A 429 response with a parseable retry-after header. -/
def res429good : HttpResponse :=
  ⟨some 429, [("retry-after", "7")], "rate limited", none⟩

/-- A transport that always answers 500. -/
def clientAlways500 : Client := fun _ => .ok res500

/-- First two invocations: 429 with an unparseable retry-after header;
then 204. -/
def clientBadHeader : Client := fun a =>
  if a ≤ 2 then .ok res429bad else .ok res204

/-- First invocation: 429 with an upper-case retry-after header; then
204. -/
def clientUpperHeader : Client := fun a =>
  if a = 1 then .ok res429upper else .ok res204

/-- First invocation: 429 with a parseable retry-after header; then
204. -/
def clientGoodHeader : Client := fun a =>
  if a = 1 then .ok res429good else .ok res204

/-- First invocation: retryable 500 response; every later invocation
throws. -/
def clientThrowLast : Client := fun a =>
  if a = 1 then .ok res500 else .error "ECONNRESET"

/-- First invocation: 200 with an empty body; then 204. -/
def clientEmptyBody : Client := fun a =>
  if a = 1 then .ok res200empty else .ok res204

/-- Run configuration for the 404 scenario. -/
def cfg404 : RunConfig :=
  { baseUrl := "https://example.atlassian.net", issues := ["NOPE-1"],
    version := "v1.0.0", versionIsId := false, mode := .fix,
    dryRun := false, maxRetries := 1 }

/-- Oracle answering 404 to every request of every issue. -/
def env404 : Env := fun _ _ => .ok res404

/-- Dry-run configuration over two issues. -/
def cfgDry : RunConfig :=
  { baseUrl := "https://example.atlassian.net",
    issues := ["ABC-1", "ABC-2"], version := "v1.0.0",
    versionIsId := false, mode := .fix, dryRun := true }

/-- Oracle whose every request throws. -/
def envErr : Env := fun _ _ => .error "network down"

/-- Three-issue configuration for the fault-isolation scenario. -/
def cfgIso : RunConfig :=
  { baseUrl := "https://example.atlassian.net",
    issues := ["OK-1", "BAD-2", "OK-3"], version := "v1.0.0",
    versionIsId := false, mode := .fix, dryRun := false, maxRetries := 1 }

/-- Oracle where issue BAD-2's transport always throws and every other
issue gets a clean GET/PUT exchange. -/
def envIso : Env := fun issue a =>
  if issue = "BAD-2" then .error "network down"
  else if a = 1 then .ok res200empty else .ok res204

/-- Single-issue configuration for the empty-body scenario. -/
def cfgEmpty : RunConfig :=
  { baseUrl := "https://example.atlassian.net", issues := ["EMPTY-1"],
    version := "v2.0.0", versionIsId := false, mode := .fix,
    dryRun := false, maxRetries := 1 }


/-! ### Helper lemmas about the retry loop -/

/-- One-step unfolding of the retry loop. -/
theorem retryGo_unfold (client : Client) (maxRetries attempt : Nat) :
    retryGo client maxRetries attempt =
      if attempt ≤ maxRetries then
        match client (attempt + 1) with
        | .ok res =>
          if 200 ≤ statusOf res ∧ statusOf res < 300 then
            ⟨1, [], some (.ok res)⟩
          else if 400 ≤ statusOf res ∧ statusOf res < 500 ∧ statusOf res ≠ 429 then
            ⟨1, [], some (.ok res)⟩
          else if maxRetries ≤ attempt + 1 then ⟨1, [], some (.ok res)⟩
          else
            let rest := retryGo client maxRetries (attempt + 1)
            ⟨rest.calls + 1,
              computeWaitSec res.headers (attempt + 1) :: rest.waits,
              rest.result⟩
        | .error e =>
          if maxRetries ≤ attempt + 1 then ⟨1, [], some (.error e)⟩
          else
            let rest := retryGo client maxRetries (attempt + 1)
            ⟨rest.calls + 1, some (2 ^ (attempt + 1)) :: rest.waits,
              rest.result⟩
      else ⟨0, [], none⟩ := by
  rw [retryGo]
  simp only [dite_eq_ite]

/-- Unfolding of an iteration whose transport invocation yields a
response. -/
theorem retryGo_ok (client : Client) (maxRetries attempt : Nat)
    (res : HttpResponse) (hle : attempt ≤ maxRetries)
    (hc : client (attempt + 1) = .ok res) :
    retryGo client maxRetries attempt =
      if 200 ≤ statusOf res ∧ statusOf res < 300 then
        ⟨1, [], some (.ok res)⟩
      else if 400 ≤ statusOf res ∧ statusOf res < 500 ∧ statusOf res ≠ 429 then
        ⟨1, [], some (.ok res)⟩
      else if maxRetries ≤ attempt + 1 then ⟨1, [], some (.ok res)⟩
      else
        ⟨(retryGo client maxRetries (attempt + 1)).calls + 1,
          computeWaitSec res.headers (attempt + 1) ::
            (retryGo client maxRetries (attempt + 1)).waits,
          (retryGo client maxRetries (attempt + 1)).result⟩ := by
  rw [retryGo_unfold, if_pos hle, hc]

/-- Unfolding of an iteration whose transport invocation throws. -/
theorem retryGo_error (client : Client) (maxRetries attempt : Nat)
    (e : String) (hle : attempt ≤ maxRetries)
    (hc : client (attempt + 1) = .error e) :
    retryGo client maxRetries attempt =
      if maxRetries ≤ attempt + 1 then ⟨1, [], some (.error e)⟩
      else
        ⟨(retryGo client maxRetries (attempt + 1)).calls + 1,
          some (2 ^ (attempt + 1)) ::
            (retryGo client maxRetries (attempt + 1)).waits,
          (retryGo client maxRetries (attempt + 1)).result⟩ := by
  rw [retryGo_unfold, if_pos hle, hc]

/-- The loop body is skipped entirely once the guard fails. -/
theorem retryGo_stop (client : Client) (maxRetries attempt : Nat)
    (hgt : ¬attempt ≤ maxRetries) :
    retryGo client maxRetries attempt = ⟨0, [], none⟩ := by
  rw [retryGo_unfold, if_neg hgt]

/-- Characterisation of the retried statuses. -/
theorem retryableStatus_true_iff (s : Nat) :
    retryableStatus s = true ↔
      ¬(200 ≤ s ∧ s < 300) ∧ ¬(400 ≤ s ∧ s < 500 ∧ s ≠ 429) := by
  simp only [retryableStatus, Bool.and_eq_true, Bool.not_eq_true',
    decide_eq_false_iff_not]

/-- Characterisation of the immediately returned statuses. -/
theorem retryableStatus_false_iff (s : Nat) :
    retryableStatus s = false ↔
      (200 ≤ s ∧ s < 300) ∨ (400 ≤ s ∧ s < 500 ∧ s ≠ 429) := by
  rw [← Bool.not_eq_true, retryableStatus_true_iff]
  tauto

/-- A response the loop does not retry is returned by the iteration that
received it, consuming exactly one transport invocation. -/
theorem retryGo_return_now (client : Client) (maxRetries attempt : Nat)
    (res : HttpResponse) (hle : attempt ≤ maxRetries)
    (hc : client (attempt + 1) = .ok res)
    (hnr : retryableStatus (statusOf res) = false) :
    retryGo client maxRetries attempt = ⟨1, [], some (.ok res)⟩ := by
  rw [retryGo_ok client maxRetries attempt res hle hc]
  rcases (retryableStatus_false_iff _).mp hnr with h1 | h2
  · rw [if_pos h1]
  · have hn1 : ¬(200 ≤ statusOf res ∧ statusOf res < 300) := by omega
    rw [if_neg hn1, if_pos h2]

/-- The loop always performs at least one transport invocation. -/
theorem requestWithRetry_calls_pos (client : Client) (maxRetries : Nat) :
    1 ≤ (requestWithRetry client maxRetries).calls := by
  rw [requestWithRetry]
  cases hc : client (0 + 1) with
  | ok res =>
    rw [retryGo_ok client maxRetries 0 res (Nat.zero_le _) hc]
    split
    · simp
    · split
      · simp
      · split <;> simp
  | error e =>
    rw [retryGo_error client maxRetries 0 e (Nat.zero_le _) hc]
    split <;> simp

/-- Upper bound on the transport invocations performed from
pre-increment counter value `attempt` on. -/
theorem retryGo_calls_le (client : Client) (maxRetries attempt : Nat) :
    (retryGo client maxRetries attempt).calls ≤ max 1 (maxRetries - attempt) := by
  suffices h : ∀ n attempt, maxRetries - attempt ≤ n →
      (retryGo client maxRetries attempt).calls ≤ max 1 (maxRetries - attempt) by
    exact h (maxRetries - attempt) attempt le_rfl
  intro n
  induction n with
  | zero =>
    intro attempt hz
    by_cases hle : attempt ≤ maxRetries
    · cases hc : client (attempt + 1) with
      | ok res =>
        rw [retryGo_ok client maxRetries attempt res hle hc]
        split
        · simp
        · split
          · simp
          · split
            · simp
            · omega
      | error e =>
        rw [retryGo_error client maxRetries attempt e hle hc]
        split
        · simp
        · omega
    · rw [retryGo_stop client maxRetries attempt hle]
      simp
  | succ n ih =>
    intro attempt hn
    by_cases hle : attempt ≤ maxRetries
    · cases hc : client (attempt + 1) with
      | ok res =>
        rw [retryGo_ok client maxRetries attempt res hle hc]
        split
        · simp
        · split
          · simp
          · split
            · simp
            · have := ih (attempt + 1) (by omega)
              simp only [RetryTrace.calls] at this ⊢
              omega
      | error e =>
        rw [retryGo_error client maxRetries attempt e hle hc]
        split
        · simp
        · have := ih (attempt + 1) (by omega)
          simp only [RetryTrace.calls] at this ⊢
          omega
    · rw [retryGo_stop client maxRetries attempt hle]
      simp

/-- When every attempt before the last is followed by another iteration
(exception or retryable status), the loop reaches attempt `maxRetries`
and its result is exactly that attempt's transport outcome: a response
is returned as-is and an exception is propagated. -/
theorem retryGo_reaches_last (client : Client) (maxRetries : Nat) :
    ∀ attempt, attempt < maxRetries →
    (∀ a, attempt < a → a < maxRetries → continuesRetry (client a) = true) →
    (retryGo client maxRetries attempt).result = some (client maxRetries) := by
  suffices h : ∀ n attempt, maxRetries - attempt ≤ n → attempt < maxRetries →
      (∀ a, attempt < a → a < maxRetries → continuesRetry (client a) = true) →
      (retryGo client maxRetries attempt).result = some (client maxRetries) by
    exact fun attempt h1 h2 => h (maxRetries - attempt) attempt le_rfl h1 h2
  intro n
  induction n with
  | zero => intro attempt hz hlt _; omega
  | succ n ih =>
    intro attempt _hn hlt hcont
    have hle : attempt ≤ maxRetries := by omega
    by_cases hlast : maxRetries ≤ attempt + 1
    · have ha : attempt + 1 = maxRetries := by omega
      cases hc : client (attempt + 1) with
      | ok res =>
        rw [retryGo_ok client maxRetries attempt res hle hc]
        have hgoal : some (Except.ok res) = some (client maxRetries) := by
          rw [← ha, hc]
        simp only [if_pos hlast]
        split
        · exact hgoal
        · split <;> exact hgoal
      | error e =>
        rw [retryGo_error client maxRetries attempt e hle hc, if_pos hlast]
        rw [← ha, hc]
    · have hcur := hcont (attempt + 1) (by omega) (by omega)
      cases hc : client (attempt + 1) with
      | ok res =>
        rw [hc] at hcur
        have hretry := (retryableStatus_true_iff (statusOf res)).mp hcur
        rw [retryGo_ok client maxRetries attempt res hle hc,
          if_neg hretry.1, if_neg hretry.2, if_neg hlast]
        exact ih (attempt + 1) (by omega) (by omega)
          (fun a h1 h2 => hcont a (by omega) h2)
      | error e =>
        rw [retryGo_error client maxRetries attempt e hle hc, if_neg hlast]
        exact ih (attempt + 1) (by omega) (by omega)
          (fun a h1 h2 => hcont a (by omega) h2)

/-! ### Helper lemmas about the orchestrator -/

/-- Processing an issue list splits componentwise: each issue's
contribution is independent of its siblings. -/
theorem runIssues_append (cfg : RunConfig) (env : Env) (l1 l2 : List String) :
    runIssues cfg env (l1 ++ l2) =
      (runIssues cfg env l1).append (runIssues cfg env l2) := by
  induction l1 with
  | nil => rfl
  | cons i rest ih =>
    simp only [List.cons_append, runIssues]
    cases (processIssue cfg i (env i)).outcome <;>
      simp [RunTrace.append, ih, List.append_assoc]

/-- In dry-run mode every issue is recorded as updated and no transport
request happens. -/
theorem runIssues_dryRun (cfg : RunConfig) (env : Env)
    (h : cfg.dryRun = true) (l : List String) :
    runIssues cfg env l = ⟨⟨l, [], []⟩, []⟩ := by
  induction l with
  | nil => rfl
  | cons i rest ih =>
    simp [runIssues, ih, processIssue, h]

/-- Every issue lands in exactly one bucket: the three buckets together
are a permutation of the input list. -/
theorem runIssues_perm (cfg : RunConfig) (env : Env) (l : List String) :
    ((runIssues cfg env l).report.updated ++
      (runIssues cfg env l).report.skipped ++
      (runIssues cfg env l).report.failed.map Prod.fst).Perm l := by
  induction l with
  | nil => rfl
  | cons i rest ih =>
    simp only [runIssues]
    cases (processIssue cfg i (env i)).outcome with
    | updated =>
      simp only [List.cons_append]
      exact ih.cons i
    | skipped =>
      simp only []
      refine List.Perm.trans ?_ (ih.cons i)
      simpa [List.append_assoc] using
        (@List.perm_middle _ i ((runIssues cfg env rest).report.updated)
          ((runIssues cfg env rest).report.skipped ++
            (runIssues cfg env rest).report.failed.map Prod.fst))
    | failed e =>
      simp only []
      refine List.Perm.trans ?_ (ih.cons i)
      simpa [List.append_assoc] using
        (@List.perm_middle _ i
          ((runIssues cfg env rest).report.updated ++
            (runIssues cfg env rest).report.skipped)
          ((runIssues cfg env rest).report.failed.map Prod.fst))

/-- Bucket sizes add up to the input size. -/
theorem runIssues_length (cfg : RunConfig) (env : Env) (l : List String) :
    (runIssues cfg env l).report.updated.length +
      (runIssues cfg env l).report.skipped.length +
      (runIssues cfg env l).report.failed.length = l.length := by
  induction l with
  | nil => rfl
  | cons i rest ih =>
    simp only [runIssues]
    cases (processIssue cfg i (env i)).outcome <;>
      simp only [List.length_cons] <;> omega

/-- A transport exception that survives the GET retry loop is caught at
the per-issue boundary and recorded as that issue's failure. -/
theorem processIssue_get_error (cfg : RunConfig) (issue : String)
    (client : Client) (e : String) (hdry : cfg.dryRun = false)
    (h : (requestWithRetry client cfg.maxRetries).result = some (.error e)) :
    (processIssue cfg issue client).outcome = .failed e := by
  simp only [processIssue, hdry, Bool.false_eq_true, if_false, h]

/-- A GET whose retry loop returns a response hands the defensively
parsed body to the rest of the per-issue flow. -/
theorem processIssue_get_ok (cfg : RunConfig) (issue : String)
    (client : Client) (res : HttpResponse) (hdry : cfg.dryRun = false)
    (h : (requestWithRetry client cfg.maxRetries).result = some (.ok res)) :
    processIssue cfg issue client =
      afterGet cfg issue client (requestWithRetry client cfg.maxRetries).calls
        (parseGetBody res) := by
  simp only [processIssue, hdry, Bool.false_eq_true, if_false, h]

/-- A transport exception that survives the PUT retry loop is caught at
the per-issue boundary and recorded as that issue's failure. -/
theorem afterGet_put_error (cfg : RunConfig) (issue : String)
    (client : Client) (getCalls : Nat) (data : IssueData) (e : String)
    (hnot : issueAlreadyHasVersion data (fieldOf cfg.mode) cfg.version
      cfg.versionIsId = false)
    (h : (requestWithRetry (fun a => client (getCalls + a))
      cfg.maxRetries).result = some (.error e)) :
    (afterGet cfg issue client getCalls data).outcome = .failed e := by
  simp only [afterGet, hnot, Bool.false_eq_true, if_false, h]

/-- When the idempotency check does not fire, a PUT request is issued. -/
theorem afterGet_put_mem (cfg : RunConfig) (issue : String)
    (client : Client) (getCalls : Nat) (data : IssueData)
    (hnot : issueAlreadyHasVersion data (fieldOf cfg.mode) cfg.version
      cfg.versionIsId = false) :
    ("PUT", issueUrlOf cfg.baseUrl issue) ∈
      (afterGet cfg issue client getCalls data).requests := by
  have hpos := requestWithRetry_calls_pos
    (fun a => client (getCalls + a)) cfg.maxRetries
  have hmem : ("PUT", issueUrlOf cfg.baseUrl issue) ∈
      List.replicate
        (requestWithRetry (fun a => client (getCalls + a))
          cfg.maxRetries).calls
        ("PUT", issueUrlOf cfg.baseUrl issue) :=
    List.mem_replicate.mpr ⟨by omega, rfl⟩
  simp only [afterGet, hnot, Bool.false_eq_true, if_false]
  rcases hres : (requestWithRetry (fun a => client (getCalls + a))
      cfg.maxRetries).result with _ | r
  · exact List.mem_append_right _ hmem
  · rcases r with r | r
    · exact List.mem_append_right _ hmem
    · exact List.mem_append_right _ hmem

/-! ### The claims -/

/-- C1, counterexample: a GET returning 404 does not terminate the
issue's processing — the orchestrator never inspects the GET status, so
a subsequent PUT request is issued for that issue, contradicting the
claim's "no subsequent PUT request". -/
theorem get404_put_still_issued_cex :
    statusOf res404 = 404 ∧
    env404 "NOPE-1" 1 = .ok res404 ∧
    (assignVersionToIssues cfg404 env404).requests.map (fun q => q.2.1) =
      ["GET", "PUT"] ∧
    (assignVersionToIssues cfg404 env404).report.failed =
      [("NOPE-1", "HTTP 404: not found")] := by
  have hs : ("HTTP " ++ toString 404 ++ ": " : String) = "HTTP 404: " := rfl
  refine ⟨rfl, rfl, ?_, ?_⟩ <;>
    simp [assignVersionToIssues, runIssues, processIssue, cfg404, env404,
      requestWithRetry, retryGo_unfold, res404, statusOf, parseGetBody,
      afterGet, issueAlreadyHasVersion, existingVersions, fieldOf,
      emptyIssueData, classifyPut, hs]

/-- C1, amended: a PUT whose response is 404 is not retried (the retry
wrapper returns after exactly one transport invocation) and is
classified as `failed` with an error string embedding 404; a GET whose
response is 404, however, does not terminate processing: its status is
ignored, and a PUT request is still issued for that issue. -/
theorem status404_terminal_amended :
    (∀ (client : Client) (maxRetries : Nat) (res : HttpResponse),
      client 1 = .ok res → statusOf res = 404 →
      requestWithRetry client maxRetries = ⟨1, [], some (.ok res)⟩) ∧
    (∀ putRes : HttpResponse, statusOf putRes = 404 →
      classifyPut putRes = .failed ("HTTP 404: " ++ putRes.rawBody)) ∧
    (∀ (cfg : RunConfig) (issue : String) (client : Client)
      (res : HttpResponse),
      cfg.dryRun = false → client 1 = .ok res → statusOf res = 404 →
      issueAlreadyHasVersion (parseGetBody res) (fieldOf cfg.mode)
        cfg.version cfg.versionIsId = false →
      ("PUT", issueUrlOf cfg.baseUrl issue) ∈
        (processIssue cfg issue client).requests) := by
  have hterm : ∀ (client : Client) (maxRetries : Nat) (res : HttpResponse),
      client 1 = .ok res → statusOf res = 404 →
      requestWithRetry client maxRetries = ⟨1, [], some (.ok res)⟩ := by
    intro client maxRetries res hc h404
    rw [requestWithRetry]
    exact retryGo_return_now client maxRetries 0 res (Nat.zero_le _) hc
      (by rw [h404]; decide)
  refine ⟨hterm, ?_, ?_⟩
  · intro putRes h404
    have hs : ("HTTP " ++ toString 404 ++ ": " : String) = "HTTP 404: " := rfl
    simp only [classifyPut, h404]
    norm_num [hs]
  · intro cfg issue client res hdry hc h404 hnot
    have hres : (requestWithRetry client cfg.maxRetries).result =
        some (.ok res) := by rw [hterm client cfg.maxRetries res hc h404]
    rw [processIssue_get_ok cfg issue client res hdry hres]
    exact afterGet_put_mem cfg issue client _ _ hnot

/-- C1, witness: the amended statement at the concrete 404 scenario. -/
theorem status404_terminal_witness :
    ("PUT", issueUrlOf cfg404.baseUrl "NOPE-1") ∈
      (processIssue cfg404 "NOPE-1" (env404 "NOPE-1")).requests :=
  status404_terminal_amended.2.2 cfg404 "NOPE-1" (env404 "NOPE-1") res404
    rfl rfl rfl (by decide)

/-- C2, counterexample: a present but unparseable retry-after header
does not fall back to exponential backoff — the recorded wait is the
`NaN` marker, not `2^attempt`; and a header stored under an upper-case
key the code does not probe is not found, so the wait is the fallback,
not the header's value. -/
theorem retry_wait_nan_cex :
    (requestWithRetry clientBadHeader 3).waits = [none, none] ∧
    ([none, none] : List (Option Nat)) ≠ [some 2, some 4] ∧
    (requestWithRetry clientUpperHeader 3).waits = [some 2] ∧
    ([some 2] : List (Option Nat)) ≠ [some 7] := by
  have hbad : ∀ attempt, computeWaitSec [("retry-after", "abc")] attempt = none :=
    fun _ => rfl
  have hup1 : computeWaitSec [("RETRY-AFTER", "7")] 1 = some 2 := by decide
  refine ⟨?_, by decide, ?_, by decide⟩ <;>
    simp [requestWithRetry, retryGo_unfold, clientBadHeader,
      clientUpperHeader, res429bad, res429upper, res204, statusOf,
      hbad, hup1]

/-- C2, amended: when a retryable response is received and another
attempt remains, the wait is `Number(header)` if a non-empty value is
present under exactly the keys `retry-after` or `Retry-After`: the
header's value in seconds when it parses as a number, the NaN marker
when it does not; only when no such (non-empty) header exists does the
wait fall back to `2^attempt` seconds. -/
theorem retry_wait_amended :
    ∀ (client : Client) (maxRetries attempt : Nat) (res : HttpResponse),
    attempt + 1 < maxRetries →
    client (attempt + 1) = .ok res →
    retryableStatus (statusOf res) = true →
    (retryGo client maxRetries attempt).waits.head? =
      some (computeWaitSec res.headers (attempt + 1)) ∧
    (retryAfterRaw res.headers = none →
      computeWaitSec res.headers (attempt + 1) = some (2 ^ (attempt + 1))) ∧
    (∀ v n, retryAfterRaw res.headers = some v → jsHeaderNumber v = some n →
      computeWaitSec res.headers (attempt + 1) = some n) ∧
    (∀ v, retryAfterRaw res.headers = some v → jsHeaderNumber v = none →
      computeWaitSec res.headers (attempt + 1) = none) := by
  intro client maxRetries attempt res hlt hc hretry
  have h12 := (retryableStatus_true_iff (statusOf res)).mp hretry
  refine ⟨?_, fun h => by simp [computeWaitSec, h],
    fun v n hv hn => by simp [computeWaitSec, hv, hn],
    fun v hv hn => by simp [computeWaitSec, hv, hn]⟩
  rw [retryGo_ok client maxRetries attempt res (by omega) hc,
    if_neg h12.1, if_neg h12.2, if_neg (by omega : ¬maxRetries ≤ attempt + 1)]
  rfl

/-- C2, witness: the amended statement at a concrete parseable header. -/
theorem retry_wait_witness :
    (requestWithRetry clientGoodHeader 3).waits.head? = some (some 7) := by
  have h := retry_wait_amended clientGoodHeader 3 0 res429good (by omega)
    rfl (by decide)
  have h7 := h.2.2.1 "7" 7 (by decide) (by decide)
  rw [requestWithRetry, h.1, h7]

/-- C3: the three buckets partition the input — their sizes add up to
the input size and their contents, concatenated, are a permutation of
the input issue list (so every input issue, duplicates included,
contributes exactly one entry to exactly one bucket). -/
theorem bucket_partition (cfg : RunConfig) (env : Env) :
    (assignVersionToIssues cfg env).report.updated.length +
      (assignVersionToIssues cfg env).report.skipped.length +
      (assignVersionToIssues cfg env).report.failed.length =
        cfg.issues.length ∧
    ((assignVersionToIssues cfg env).report.updated ++
      (assignVersionToIssues cfg env).report.skipped ++
      (assignVersionToIssues cfg env).report.failed.map Prod.fst).Perm
        cfg.issues :=
  ⟨runIssues_length cfg env cfg.issues, runIssues_perm cfg env cfg.issues⟩

/-- C5: per-issue fault isolation — the run is the componentwise
composition of each issue's independent processing (so one issue's
outcome never affects its siblings, and siblings behave exactly as if
the issue were processed alone), and a transport exception surviving
either retry loop is caught at the per-issue boundary and turned into
that issue's `failed` outcome. -/
theorem fault_isolation :
    ∀ (cfg : RunConfig) (env : Env) (l1 : List String) (x : String)
      (l2 : List String),
    cfg.issues = l1 ++ x :: l2 →
    (assignVersionToIssues cfg env =
      (runIssues cfg env l1).append
        ((runIssues cfg env [x]).append (runIssues cfg env l2))) ∧
    (∀ e, cfg.dryRun = false →
      (requestWithRetry (env x) cfg.maxRetries).result = some (.error e) →
      (processIssue cfg x (env x)).outcome = .failed e) ∧
    (∀ e data getCalls,
      issueAlreadyHasVersion data (fieldOf cfg.mode) cfg.version
        cfg.versionIsId = false →
      (requestWithRetry (fun a => env x (getCalls + a))
        cfg.maxRetries).result = some (.error e) →
      (afterGet cfg x (env x) getCalls data).outcome = .failed e) := by
  intro cfg env l1 x l2 hsplit
  refine ⟨?_, fun e hdry h => processIssue_get_error cfg x (env x) e hdry h,
    fun e data getCalls hnot h =>
      afterGet_put_error cfg x (env x) getCalls data e hnot h⟩
  rw [assignVersionToIssues, hsplit,
    show (x :: l2 : List String) = [x] ++ l2 from rfl,
    runIssues_append cfg env l1 ([x] ++ l2),
    runIssues_append cfg env [x] l2]

/-- C5, witness: in the three-issue scenario the middle issue's
throwing transport yields its own `failed` outcome. -/
theorem fault_isolation_witness :
    (processIssue cfgIso "BAD-2" (envIso "BAD-2")).outcome =
      .failed "network down" := by
  have h := fault_isolation cfgIso envIso ["OK-1"] "BAD-2" ["OK-3"] rfl
  refine h.2.1 "network down" rfl ?_
  simp [requestWithRetry, retryGo_unfold, envIso, cfgIso]

/-- C6: in dry-run mode every input issue is recorded as updated (in
input order, hence order-insensitively equal to the input set), the
skipped and failed buckets are empty, and no transport request of any
kind is performed. -/
theorem dry_run_updates_all (cfg : RunConfig) (env : Env)
    (h : cfg.dryRun = true) :
    (assignVersionToIssues cfg env).report.updated = cfg.issues ∧
    (assignVersionToIssues cfg env).report.skipped = [] ∧
    (assignVersionToIssues cfg env).report.failed = [] ∧
    (assignVersionToIssues cfg env).requests = [] := by
  rw [assignVersionToIssues, runIssues_dryRun cfg env h cfg.issues]
  exact ⟨rfl, rfl, rfl, rfl⟩

/-- C6, witness: the dry-run statement at a concrete two-issue run over
a transport that would throw if it were ever consulted. -/
theorem dry_run_updates_all_witness :
    (assignVersionToIssues cfgDry envErr).report.updated =
      ["ABC-1", "ABC-2"] ∧
    (assignVersionToIssues cfgDry envErr).report.skipped = [] ∧
    (assignVersionToIssues cfgDry envErr).report.failed = [] ∧
    (assignVersionToIssues cfgDry envErr).requests = [] :=
  dry_run_updates_all cfgDry envErr rfl

/-- C7: the idempotency check (a pure function by construction) treats
a missing `fields` object as an empty collection and returns true
exactly when some existing entry's id (when `versionIsId`) or name
(otherwise) equals the target version string. -/
theorem idempotency_check_spec :
    (∀ (d : IssueData) (field version : String) (isId : Bool),
      issueAlreadyHasVersion d field version isId = true ↔
        ∃ v ∈ existingVersions d field,
          (if isId then v.id else v.name) = some version) ∧
    (∀ (field version : String) (isId : Bool),
      issueAlreadyHasVersion ⟨none⟩ field version isId = false) := by
  constructor
  · intro d field version isId
    simp only [issueAlreadyHasVersion, List.any_eq_true]
    refine exists_congr fun v => and_congr_right fun _ => ?_
    cases isId <;> simp
  · intro field version isId
    rfl

/-- C8: a successful GET whose body is missing or unparseable is
treated as empty version data — the per-issue flow continues with the
empty issue object (no parse exception escapes) and, since the
idempotency check cannot fire on empty data, a PUT request is issued. -/
theorem malformed_body_proceeds :
    ∀ (cfg : RunConfig) (issue : String) (client : Client)
      (res : HttpResponse),
    cfg.dryRun = false →
    (requestWithRetry client cfg.maxRetries).result = some (.ok res) →
    200 ≤ statusOf res → statusOf res < 300 →
    (res.rawBody = "" ∨ res.parsedBody = none) →
    processIssue cfg issue client =
      afterGet cfg issue client
        (requestWithRetry client cfg.maxRetries).calls emptyIssueData ∧
    ("PUT", issueUrlOf cfg.baseUrl issue) ∈
      (processIssue cfg issue client).requests := by
  intro cfg issue client res hdry hres _h2 _h3 hbody
  have hparse : parseGetBody res = emptyIssueData := by
    rcases hbody with hb | hb
    · simp [parseGetBody, hb]
    · unfold parseGetBody
      rw [hb]
      split <;> rfl
  have hmain := processIssue_get_ok cfg issue client res hdry hres
  rw [hparse] at hmain
  refine ⟨hmain, ?_⟩
  rw [hmain]
  exact afterGet_put_mem cfg issue client _ emptyIssueData rfl

/-- C8, witness: the empty-body statement at a concrete 200-with-empty-
body GET. -/
theorem malformed_body_witness :
    ("PUT", issueUrlOf cfgEmpty.baseUrl "EMPTY-1") ∈
      (processIssue cfgEmpty "EMPTY-1" clientEmptyBody).requests := by
  refine (malformed_body_proceeds cfgEmpty "EMPTY-1" clientEmptyBody
    res200empty rfl ?_ (by decide) (by decide) (Or.inl rfl)).2
  simp [requestWithRetry, retryGo_unfold, clientEmptyBody, res200empty,
    statusOf, cfgEmpty]

/-- C9: asymmetry at exhaustion — when the loop reaches the final
allowed attempt, a response received there (of any status) is returned
to the caller without raising, while a transport exception there is
propagated to the caller. -/
theorem exhaustion_asymmetry :
    ∀ (client : Client) (maxRetries : Nat),
    1 ≤ maxRetries →
    (∀ a, 1 ≤ a → a < maxRetries → continuesRetry (client a) = true) →
    (∀ res, client maxRetries = .ok res →
      (requestWithRetry client maxRetries).result = some (.ok res)) ∧
    (∀ e, client maxRetries = .error e →
      (requestWithRetry client maxRetries).result = some (.error e)) := by
  intro client maxRetries h1 hcont
  have h := retryGo_reaches_last client maxRetries 0 (by omega)
    (fun a ha hb => hcont a (by omega) hb)
  rw [requestWithRetry]
  exact ⟨fun res hres => by rw [h, hres], fun e he => by rw [h, he]⟩

/-- C9, witness: with two allowed attempts, a final 500 response is
returned (not raised) while a final transport exception is raised. -/
theorem exhaustion_asymmetry_witness :
    (requestWithRetry clientThrowLast 2).result =
      some (.error "ECONNRESET") ∧
    (requestWithRetry clientAlways500 2).result = some (.ok res500) := by
  constructor
  · have hcont : ∀ a, 1 ≤ a → a < 2 →
        continuesRetry (clientThrowLast a) = true := by
      intro a h1 h2
      have ha : a = 1 := by omega
      subst ha
      decide
    exact (exhaustion_asymmetry clientThrowLast 2 (by omega) hcont).2
      "ECONNRESET" rfl
  · exact (exhaustion_asymmetry clientAlways500 2 (by omega)
      (fun a h1 h2 => rfl)).1 res500 rfl

/-- C4, counterexample: with `maxRetries = 0` the loop guard
`attempt ≤ maxRetries` still admits the first iteration (the counter is
compared before its increment), so one transport invocation happens —
more than the zero the claim's "at most maxRetries" bound allows. -/
theorem zero_retries_one_call_cex :
    (requestWithRetry clientAlways500 0).calls = 1 ∧
    ¬(requestWithRetry clientAlways500 0).calls ≤ 0 := by
  have h : requestWithRetry clientAlways500 0 = ⟨1, [], some (.ok res500)⟩ := by
    rw [requestWithRetry,
      retryGo_ok clientAlways500 0 0 res500 (le_refl 0) rfl]
    simp [statusOf, res500]
  rw [h]
  exact ⟨rfl, by decide⟩

/-- C4, amended: the attempt counter is incremented from 0 at the top
of each iteration (the first try is attempt 1) and the guard
`attempt ≤ maxRetries` is checked against the pre-increment value, so
the transport is invoked at least once and at most
`max 1 maxRetries` times per call (at most `maxRetries` whenever
`maxRetries ≥ 1`, but exactly once when `maxRetries = 0`). -/
theorem attempt_bound_amended (client : Client) (maxRetries : Nat) :
    1 ≤ (requestWithRetry client maxRetries).calls ∧
    (requestWithRetry client maxRetries).calls ≤ max 1 maxRetries := by
  refine ⟨requestWithRetry_calls_pos client maxRetries, ?_⟩
  have h := retryGo_calls_le client maxRetries 0
  rw [requestWithRetry]
  simpa using h

end JiraAction
